import Mathlib

/-!
Verification of the PyFxA OAuth client (`fxa/oauth.py`).

The source is shallowly embedded: JSON responses from the server become
association lists from string keys to string values, JSON request bodies
become association lists from string keys to optional string values
(`none` embeds Python's `None` / JSON `null`), and the HTTP transport
becomes an explicit function from request bodies to responses.  Each
client method is split into the pure request-body construction and the
pure response-handling part; the full method is their composition
through the transport.  Raised exceptions become `Except.error` values
of the `FxaError` taxonomy.
-/

namespace PyFxA

/-- Error taxonomy of the library (`fxa/errors.py` is referenced by the
source; only the two constructors used by `fxa/oauth.py` are modelled).
`outOfProtocol` carries the human-readable message, `scopeMismatch`
carries the granted and requested scope values, mirroring the
constructor call `ScopeMismatchError(authorized_scope, scope)`. -/
inductive FxaError where
  | outOfProtocol (message : String)
  | scopeMismatch (granted requested : String)
deriving DecidableEq

deriving instance DecidableEq for Except

/-- A parsed JSON response body: an association list of string fields. -/
abbrev Response := List (String × String)

/-- A JSON request body: values are optional strings, `none` embedding
Python's `None` (serialised as JSON `null`). -/
abbrev RequestBody := List (String × Option String)

/-- The client configuration (`Client.__init__`): `client_id` and
`client_secret` may be left unset (`None`); `server_url` is the base
URL held by the API client. -/
structure Client where
  client_id : Option String
  client_secret : Option String
  server_url : String
deriving DecidableEq

/-- The per-call override pattern `if client_id is None: client_id =
self.client_id` used by every request-issuing method. -/
def resolveClientId (c : Client) (client_id : Option String) : Option String :=
  match client_id with
  | none => c.client_id
  | some v => some v

/-- Same pattern for the client secret in `trade_code`. -/
def resolveClientSecret (c : Client) (client_secret : Option String) : Option String :=
  match client_secret with
  | none => c.client_secret
  | some v => some v

/-! ### Scope matching

`scope_matches` is imported by `fxa/oauth.py` from `fxa._utils`, a
module that is not among the provided sources, so it is modelled from
the specification below. -/

/-- Modelled from the spec: whitespace-delimited scope strings are
normalised into their list of non-empty tokens ("malformed/empty input
normalizing to an empty set").  Auxiliary accumulator recursion; `cur`
holds the current token reversed. -/
def splitOnWsAux : List Char → List Char → List (List Char)
  | cur, [] => if cur = [] then [] else [cur.reverse]
  | cur, c :: cs =>
    if c.isWhitespace then
      if cur = [] then splitOnWsAux [] cs else cur.reverse :: splitOnWsAux [] cs
    else splitOnWsAux (c :: cur) cs

/-- Modelled from the spec: tokenisation of a scope set given as a
whitespace-delimited string. -/
def tokenizeScopes (s : String) : List String :=
  (splitOnWsAux [] s.data).map List.asString

/-- Modelled from the spec: a granted scope token satisfies a requested
token when it "is either exactly equal to it, or is a hierarchical
ancestor of it under slash-delimited prefix matching". -/
def scopeTokenSatisfies (granted requested : String) : Bool :=
  granted == requested || List.isPrefixOf (granted.data ++ ['/']) requested.data

/-- Modelled from the spec: `fxa._utils.scope_matches` (not among the
provided sources).  "All requested tokens must be satisfied for the
overall match to succeed (logical AND across requested tokens; logical
OR across granted tokens per requested token)." -/
def scope_matches (granted requested : String) : Bool :=
  (tokenizeScopes requested).all fun req =>
    (tokenizeScopes granted).any fun g => scopeTokenSatisfies g req

/-! ### verify_token (`fxa/oauth.py` lines 149-175) -/

/-- Request body of `verify_token`: `{'token': token}`. -/
def verifyTokenBody (token : String) : RequestBody := [("token", some token)]

/-- The tuple `('user', 'scope', 'client_id')` iterated at line 164. -/
def requiredVerifyFields : List String := ["user", "scope", "client_id"]

/-- The list comprehension `[k for k in ('user', 'scope', 'client_id')
if k not in resp]`. -/
def missingVerifyFields (resp : Response) : List String :=
  requiredVerifyFields.filter fun k => (resp.lookup k).isNone

/-- Response handling of `verify_token` (lines 164-175): the missing
required fields are comma-joined; a non-empty join raises
`OutOfProtocolError`; then, when a scope argument was supplied, the
granted `resp['scope']` is checked with `scope_matches` and a failure
raises `ScopeMismatchError`; otherwise the whole response is returned.
The `getD` default is unreachable: the missing-fields check has already
ensured that the "scope" field is present. -/
def verifyTokenHandle (scope : Option String) (resp : Response) :
    Except FxaError Response :=
  let missing_attrs := String.intercalate ", " (missingVerifyFields resp)
  if missing_attrs ≠ "" then
    .error (.outOfProtocol (missing_attrs ++ " missing in OAuth response"))
  else
    match scope with
    | none => .ok resp
    | some requested =>
      let authorized_scope := (resp.lookup "scope").getD ""
      if scope_matches authorized_scope requested then .ok resp
      else .error (.scopeMismatch authorized_scope requested)

/-- Full `verify_token`: POST the body through the transport, handle the
response.  The method reads no configuration field and assigns nothing,
so the client value is returned unchanged alongside the result to make
the absence of state mutation explicit. -/
def verify_token (c : Client) (token : String) (scope : Option String)
    (transport : RequestBody → Response) : Except FxaError Response × Client :=
  (verifyTokenHandle scope (transport (verifyTokenBody token)), c)

/-! ### trade_code (`fxa/oauth.py` lines 53-77) -/

/-- Request body of `trade_code` (lines 61-70): resolved client id and
secret plus the code. -/
def tradeCodeBody (c : Client) (code : String)
    (client_id client_secret : Option String) : RequestBody :=
  [("code", some code),
   ("client_id", resolveClientId c client_id),
   ("client_secret", resolveClientSecret c client_secret)]

/-- Response handling of `trade_code` (lines 73-77): missing
`access_token` raises `OutOfProtocolError`, otherwise the token string
is returned. -/
def tradeCodeHandle (resp : Response) : Except FxaError String :=
  match resp.lookup "access_token" with
  | none => .error (.outOfProtocol "access_token missing in OAuth response")
  | some t => .ok t

/-- Full `trade_code`. -/
def trade_code (c : Client) (code : String)
    (client_id client_secret : Option String)
    (transport : RequestBody → Response) : Except FxaError String :=
  tradeCodeHandle (transport (tradeCodeBody c code client_id client_secret))

/-! ### URL machinery

Embeddings of the pieces of `six.moves.urllib.parse` used by the
source: the query/fragment structure of `urlparse`/`urlunparse`, the
query-string parser `parse_qs` with its default options
(blank values dropped, pairs split on both separators, values
percent-decoded with plus-as-space), and `urlencode` built on
`quote_plus`.  Everything works on `List Char` so that the proofs can
proceed by structural induction; `String` wrappers sit on top. -/

/-- Characters of a URL strictly before the first occurrence of `sep`
(the whole URL when `sep` does not occur). -/
def takeUntilChar (sep : Char) (l : List Char) : List Char :=
  l.takeWhile fun c => c ≠ sep

/-- Characters of a URL strictly after the first occurrence of `sep`
(empty when `sep` does not occur). -/
def afterFirstChar (sep : Char) (l : List Char) : List Char :=
  (l.dropWhile fun c => c ≠ sep).tail

/-- The `query` component `urlparse` assigns to a URL: what lies after
the first question mark, the fragment (everything from the first hash
sign on) having been cut off first. -/
def queryOfL (url : List Char) : List Char :=
  afterFirstChar '?' (takeUntilChar '#' url)

/-- Rebuilding a URL with its query component replaced: the composition
`urlunparse(urlparse(url)._replace(query=q))` used at lines 50-51.  The
base keeps everything before the first question mark (fragment
excluded); a non-empty query is appended after a question mark and a
non-empty fragment after a hash sign, as `urlunparse` does. -/
def replaceQueryL (url q : List Char) : List Char :=
  takeUntilChar '?' (takeUntilChar '#' url)
  ++ (if q = [] then [] else '?' :: q)
  ++ (if afterFirstChar '#' url = [] then [] else '#' :: afterFirstChar '#' url)

/-! #### parse_qs (used at line 112) -/

/-- Full character split keeping empty segments, as Python's
`str.split(sep)`; `cur` accumulates the current segment reversed. -/
def splitOnCharAux (sep : Char) : List Char → List Char → List (List Char)
  | cur, [] => [cur.reverse]
  | cur, c :: cs =>
    if c = sep then cur.reverse :: splitOnCharAux sep [] cs
    else splitOnCharAux sep (c :: cur) cs

/-- Python `qs.split(sep)` on character lists. -/
def splitOnChar (sep : Char) (l : List Char) : List (List Char) :=
  splitOnCharAux sep [] l

/-- The pair-splitting step of `parse_qsl`: the query string is split
on ampersands and each piece again on semicolons (the behaviour of the
`six`-era standard library). -/
def splitPairsQs (q : List Char) : List (List Char) :=
  ((splitOnChar '&' q).map (splitOnChar ';')).flatten

/-- Python `name_value.split('=', 1)`, distinguishing the no-equals
case (`none`) that `parse_qsl` skips when blank values are not kept. -/
def splitOnFirstEq : List Char → Option (List Char × List Char)
  | [] => none
  | c :: cs =>
    if c = '=' then some ([], cs)
    else
      match splitOnFirstEq cs with
      | none => none
      | some (a, b) => some (c :: a, b)

/-- Hexadecimal digit value of a character, `none` for non-hex. -/
def hexVal (c : Char) : Option Nat :=
  if '0' ≤ c ∧ c ≤ '9' then some (c.toNat - '0'.toNat)
  else if 'a' ≤ c ∧ c ≤ 'f' then some (c.toNat - 'a'.toNat + 10)
  else if 'A' ≤ c ∧ c ≤ 'F' then some (c.toNat - 'A'.toNat + 10)
  else none

/-- Percent-decoding as `urllib`'s `unquote`: a percent sign followed
by two hex digits becomes the character of that code (the model covers
the single-byte case; invalid escapes are left untouched, as in
Python). -/
def unquoteL : List Char → List Char
  | [] => []
  | '%' :: a :: b :: rest =>
    match hexVal a, hexVal b with
    | some x, some y => Char.ofNat (16 * x + y) :: unquoteL rest
    | _, _ => '%' :: unquoteL (a :: b :: rest)
  | c :: rest => c :: unquoteL rest

/-- The value decoding of `parse_qsl`:
`unquote(s.replace('+', ' '))`. -/
def unquotePlus (l : List Char) : String :=
  (unquoteL (l.map fun c => if c = '+' then ' ' else c)).asString

/-- One `name=value` pair of `parse_qsl` under the default options: an
empty pair is skipped, a pair without an equals sign is skipped, a pair
with an empty value is skipped (blank values are not kept), and the
surviving name and value are decoded. -/
def parseQsPair (p : List Char) : Option (String × String) :=
  if p = [] then none
  else
    match splitOnFirstEq p with
    | none => none
    | some (name, value) =>
      if value = [] then none
      else some (unquotePlus name, unquotePlus value)

/-- Python `parse_qs` flattened to the ordered list of name/value
pairs; `parse_qs(q)[k][0]` is the value of the first pair named `k`. -/
def parseQs (q : List Char) : List (String × String) :=
  (splitPairsQs q).filterMap parseQsPair

/-- The successive values of the `code` query parameter of a redirect
URL, in order of appearance. -/
def codeValues (url : String) : List String :=
  ((parseQs (queryOfL url.data)).filter fun p => p.1 == "code").map Prod.snd

/-- The access `parse_qs(urlparse(url).query)["code"][0]` of line 114:
the first `code` value, `none` embedding the `KeyError` path. -/
def firstCodeValue (url : String) : Option String :=
  (codeValues url).head?

/-! ### authorize_code and authorize_token (`fxa/oauth.py` lines 79-147) -/

/-- A conditionally inserted body or query parameter, as the
`if x is not None: params[k] = x` statements of the source. -/
def optPair (name : String) : Option String → RequestBody
  | some v => [(name, some v)]
  | none => []

/-- Request body of `authorize_code` (lines 94-103). -/
def authorizeCodeBody (c : Client) (assertion : String)
    (scope client_id : Option String) : RequestBody :=
  [("client_id", resolveClientId c client_id),
   ("assertion", some assertion),
   ("state", some "x")] ++ optPair "scope" scope

/-- Response handling of `authorize_code` (lines 106-117): a missing
`redirect` field raises `OutOfProtocolError`; otherwise the code is the
first `code` query parameter of the redirect URL, its absence (the
`KeyError`/`IndexError`/`ValueError` path) raising
`OutOfProtocolError`. -/
def authorizeCodeHandle (resp : Response) : Except FxaError String :=
  match resp.lookup "redirect" with
  | none => .error (.outOfProtocol "redirect missing in OAuth response")
  | some redirect =>
    match firstCodeValue redirect with
    | some code => .ok code
    | none => .error (.outOfProtocol "code missing in OAuth redirect url")

/-- Full `authorize_code`. -/
def authorize_code (c : Client) (assertion : String)
    (scope client_id : Option String)
    (transport : RequestBody → Response) : Except FxaError String :=
  authorizeCodeHandle (transport (authorizeCodeBody c assertion scope client_id))

/-- Request body of `authorize_token` (lines 130-140). -/
def authorizeTokenBody (c : Client) (assertion : String)
    (scope client_id : Option String) : RequestBody :=
  [("client_id", resolveClientId c client_id),
   ("assertion", some assertion),
   ("response_type", some "token"),
   ("state", some "x")] ++ optPair "scope" scope

/-- Response handling of `authorize_token` (lines 143-147), identical
to the `trade_code` contract. -/
def authorizeTokenHandle (resp : Response) : Except FxaError String :=
  match resp.lookup "access_token" with
  | none => .error (.outOfProtocol "access_token missing in OAuth response")
  | some t => .ok t

/-- Full `authorize_token`. -/
def authorize_token (c : Client) (assertion : String)
    (scope client_id : Option String)
    (transport : RequestBody → Response) : Except FxaError String :=
  authorizeTokenHandle (transport (authorizeTokenBody c assertion scope client_id))

/-! ### get_redirect_url (`fxa/oauth.py` lines 32-51)

The construction relies on `urlencode`, whose default quoting function
is `quote_plus`: UTF-8 bytes that are ASCII alphanumerics or one of
underscore, dot, dash and tilde pass through, the space byte becomes a
plus sign, and every other byte is percent-encoded with two uppercase
hexadecimal digits. -/

/-- Uppercase hexadecimal digit for a value below sixteen. -/
def hexDigitChar : Nat → Char
  | 0 => '0' | 1 => '1' | 2 => '2' | 3 => '3' | 4 => '4'
  | 5 => '5' | 6 => '6' | 7 => '7' | 8 => '8' | 9 => '9'
  | 10 => 'A' | 11 => 'B' | 12 => 'C' | 13 => 'D' | 14 => 'E' | 15 => 'F'
  | _ => '0'

/-- UTF-8 encoding of one character as its list of byte values. -/
def utf8Bytes (c : Char) : List Nat :=
  let n := c.toNat
  if n < 0x80 then [n]
  else if n < 0x800 then
    [0xC0 ||| (n >>> 6), 0x80 ||| (n &&& 0x3F)]
  else if n < 0x10000 then
    [0xE0 ||| (n >>> 12), 0x80 ||| ((n >>> 6) &&& 0x3F), 0x80 ||| (n &&& 0x3F)]
  else
    [0xF0 ||| (n >>> 18), 0x80 ||| ((n >>> 12) &&& 0x3F),
     0x80 ||| ((n >>> 6) &&& 0x3F), 0x80 ||| (n &&& 0x3F)]

/-- The characters `quote_plus` never encodes: ASCII letters, digits,
underscore, dot, dash, tilde. -/
def isSafeUrlChar (c : Char) : Bool :=
  c.isAlphanum || c == '_' || c == '.' || c == '-' || c == '~'

/-- Percent-escape of one byte value (the extra modulus on the high
nibble is the identity for byte values and keeps both digits below
sixteen). -/
def percentEncodeByte (b : Nat) : List Char :=
  ['%', hexDigitChar (b / 16 % 16), hexDigitChar (b % 16)]

/-- Python `quote_plus` on one character: safe ASCII characters stand
for their own byte and pass through, a space becomes a plus, and every
other character has each of its UTF-8 bytes percent-escaped. -/
def quotePlusChar (c : Char) : List Char :=
  if isSafeUrlChar c then [c]
  else if c = ' ' then ['+']
  else ((utf8Bytes c).map percentEncodeByte).flatten

/-- Python `quote_plus` on a string. -/
def quotePlusL (s : String) : List Char :=
  (s.data.map quotePlusChar).flatten

/-- Python `str(value)` on the body values: `None` prints as the
literal `None`, strings print as themselves. -/
def strOfOpt : Option String → String
  | none => "None"
  | some s => s

/-- One `key=value` piece of `urlencode`: both sides quoted. -/
def urlencodePair (p : String × Option String) : List Char :=
  quotePlusL p.1 ++ '=' :: quotePlusL (strOfOpt p.2)

/-- Python `'&'.join(pieces)`. -/
def joinAmp : List (List Char) → List Char
  | [] => []
  | [l] => l
  | l :: l₂ :: ls => l ++ '&' :: joinAmp (l₂ :: ls)

/-- Python `urlencode(params)` over the ordered parameter list. -/
def urlencodeL (ps : RequestBody) : List Char :=
  joinAmp (ps.map urlencodePair)

/-- The ordered query-parameter mapping built at lines 37-48:
`client_id` and `state` always, then each optional argument that is not
`None`, in source order. -/
def getRedirectUrlParams (c : Client) (state : String)
    (redirect_uri scope action email client_id : Option String) : RequestBody :=
  [("client_id", resolveClientId c client_id), ("state", some state)]
  ++ optPair "redirect_uri" redirect_uri ++ optPair "scope" scope
  ++ optPair "action" action ++ optPair "email" email

/-- Full `get_redirect_url` (lines 49-51): the authorization endpoint
URL with its query component replaced by the encoded parameters.  No
transport argument: the method performs no network call. -/
def get_redirect_url (c : Client) (state : String)
    (redirect_uri scope action email client_id : Option String) : String :=
  (replaceQueryL (c.server_url.data ++ ("/v1/authorization").data)
    (urlencodeL (getRedirectUrlParams c state redirect_uri scope action email client_id))).asString

/-! ## Theorems -/

/-- The comma-join of the missing verification fields is empty exactly
when no field is missing (the field names are themselves non-empty, so
the join cannot collapse). -/
theorem intercalate_missing_eq_empty_iff (resp : Response) :
    String.intercalate ", " (missingVerifyFields resp) = "" ↔
      missingVerifyFields resp = [] := by
  unfold missingVerifyFields requiredVerifyFields
  cases hu : (resp.lookup "user").isNone <;>
    cases hs : (resp.lookup "scope").isNone <;>
      cases hc : (resp.lookup "client_id").isNone <;>
        simp [List.filter_cons, hu, hs, hc] <;> decide

/-- Branch structure of the verify-token response handler: the
missing-fields error fires exactly when the missing list is non-empty;
otherwise the optional scope check decides between the validated record
and the scope-mismatch error. -/
theorem verifyTokenHandle_eq (scope : Option String) (resp : Response) :
    verifyTokenHandle scope resp =
      if missingVerifyFields resp = [] then
        match scope with
        | none => .ok resp
        | some requested =>
          if scope_matches ((resp.lookup "scope").getD "") requested then .ok resp
          else .error (.scopeMismatch ((resp.lookup "scope").getD "") requested)
      else
        .error (.outOfProtocol
          (String.intercalate ", " (missingVerifyFields resp) ++ " missing in OAuth response")) := by
  unfold verifyTokenHandle
  by_cases h : missingVerifyFields resp = []
  · rw [if_pos h]
    have he : String.intercalate ", " (missingVerifyFields resp) = "" := by
      rw [h]; rfl
    rw [he]
    simp
  · have he : String.intercalate ", " (missingVerifyFields resp) ≠ "" := by
      rw [Ne, intercalate_missing_eq_empty_iff]; exact h
    simp [he, h]

/-- C1: scope_matches returns true exactly when every requested token
has a granted token equal to it or a slash-delimited hierarchical
ancestor of it; the four concrete examples of the specification
hold. -/
theorem scope_matches_spec (granted requested : String) :
    (scope_matches granted requested = true ↔
      ∀ req ∈ tokenizeScopes requested, ∃ g ∈ tokenizeScopes granted,
        g = req ∨ List.IsPrefix (g.data ++ ['/']) req.data)
    ∧ scope_matches "profile email" "profile" = true
    ∧ scope_matches "profile/email" "profile" = false
    ∧ scope_matches "" "profile" = false
    ∧ scope_matches "profile" "" = true := by
  refine ⟨?_, by decide, by decide, by decide, by decide⟩
  simp [scope_matches, List.all_eq_true, List.any_eq_true, scopeTokenSatisfies,
    Bool.or_eq_true, beq_iff_eq, List.isPrefixOf_iff_prefix]

/-- Witness for C1 at the concrete inputs of the specification. -/
theorem scope_matches_spec_witness :
    scope_matches "profile email" "profile" = true
    ∧ scope_matches "profile/email" "profile" = false :=
  ⟨(scope_matches_spec "profile email" "profile").2.1,
   (scope_matches_spec "profile/email" "profile").2.2.1⟩

/-- C2: when the verification response carries the three required
fields, verify_token returns the full record exactly when the granted
scope satisfies the requested one, and otherwise fails with a
scope-mismatch error carrying the granted and requested values. -/
theorem verify_token_scope_enforcement (c : Client) (token requested granted : String)
    (transport : RequestBody → Response)
    (hu : ((transport (verifyTokenBody token)).lookup "user").isNone = false)
    (hs : (transport (verifyTokenBody token)).lookup "scope" = some granted)
    (hc : ((transport (verifyTokenBody token)).lookup "client_id").isNone = false) :
    (verify_token c token (some requested) transport).1 =
      if scope_matches granted requested then .ok (transport (verifyTokenBody token))
      else .error (.scopeMismatch granted requested) := by
  have hmiss : missingVerifyFields (transport (verifyTokenBody token)) = [] := by
    unfold missingVerifyFields requiredVerifyFields
    simp [List.filter_cons, hu, hs, hc]
  show verifyTokenHandle (some requested) (transport (verifyTokenBody token)) = _
  rw [verifyTokenHandle_eq, if_pos hmiss]
  simp [hs]

/-- Witness for C2: the ancestor-match success and the mismatch error
of the specification's example. -/
theorem verify_token_scope_enforcement_witness :
    (verify_token ⟨some "cid", none, "srv"⟩ "tok" (some "profile/email")
        (fun _ => [("user", "u"), ("scope", "profile"), ("client_id", "web")])).1
      = .ok [("user", "u"), ("scope", "profile"), ("client_id", "web")]
    ∧ (verify_token ⟨some "cid", none, "srv"⟩ "tok" (some "profile/email")
        (fun _ => [("user", "u"), ("scope", "display_name"), ("client_id", "web")])).1
      = .error (.scopeMismatch "display_name" "profile/email") := by
  constructor
  · have h := verify_token_scope_enforcement ⟨some "cid", none, "srv"⟩ "tok" "profile/email"
      "profile" (fun _ => [("user", "u"), ("scope", "profile"), ("client_id", "web")])
      (by decide) (by decide) (by decide)
    rw [h]; decide
  · have h := verify_token_scope_enforcement ⟨some "cid", none, "srv"⟩ "tok" "profile/email"
      "display_name" (fun _ => [("user", "u"), ("scope", "display_name"), ("client_id", "web")])
      (by decide) (by decide) (by decide)
    rw [h]; decide

/-- C3: the missing-fields list is the ordered filter of user, scope,
client_id over the response; verify_token fails with an
out-of-protocol error naming exactly that comma-joined list when it is
non-empty, and never raises an out-of-protocol error when it is
empty. -/
theorem verify_token_missing_fields (scope : Option String) (resp : Response) :
    (∀ k, k ∈ missingVerifyFields resp ↔
        k ∈ requiredVerifyFields ∧ resp.lookup k = none)
    ∧ (missingVerifyFields resp ≠ [] →
        verifyTokenHandle scope resp =
          .error (.outOfProtocol
            (String.intercalate ", " (missingVerifyFields resp) ++ " missing in OAuth response")))
    ∧ (missingVerifyFields resp = [] →
        ∀ m, verifyTokenHandle scope resp ≠ .error (.outOfProtocol m)) := by
  refine ⟨?_, ?_, ?_⟩
  · intro k
    simp [missingVerifyFields, List.mem_filter, Option.isNone_iff_eq_none]
  · intro hne
    rw [verifyTokenHandle_eq, if_neg hne]
  · intro h m
    rw [verifyTokenHandle_eq, if_pos h]
    cases scope with
    | none => simp
    | some requested =>
      by_cases hm : scope_matches ((resp.lookup "scope").getD "") requested <;> simp [hm]

/-- Witness for C3: a response missing only the scope field yields the
message naming exactly that field. -/
theorem verify_token_missing_fields_witness :
    verifyTokenHandle none [("user", "u"), ("client_id", "web")] =
      .error (.outOfProtocol "scope missing in OAuth response") := by
  have h := (verify_token_missing_fields none [("user", "u"), ("client_id", "web")]).2.1
    (by decide)
  rw [h]; decide

/-- C4: trade_code returns the access_token value of the response
unchanged when the field is present and fails with an out-of-protocol
error when it is absent (in particular on the empty response). -/
theorem trade_code_access_token (c : Client) (code : String) (cid cs : Option String)
    (transport : RequestBody → Response) :
    (∀ t, (transport (tradeCodeBody c code cid cs)).lookup "access_token" = some t →
        trade_code c code cid cs transport = .ok t)
    ∧ ((transport (tradeCodeBody c code cid cs)).lookup "access_token" = none →
        trade_code c code cid cs transport =
          .error (.outOfProtocol "access_token missing in OAuth response")) := by
  constructor
  · intro t ht
    simp [trade_code, tradeCodeHandle, ht]
  · intro h
    simp [trade_code, tradeCodeHandle, h]

/-- Witness for C4: a present token is returned unchanged; the empty
response fails out-of-protocol. -/
theorem trade_code_access_token_witness :
    trade_code ⟨some "cid", some "sec", "srv"⟩ "code" none none
        (fun _ => [("access_token", "tok")]) = .ok "tok"
    ∧ trade_code ⟨some "cid", some "sec", "srv"⟩ "code" none none (fun _ => []) =
        .error (.outOfProtocol "access_token missing in OAuth response") :=
  ⟨(trade_code_access_token ⟨some "cid", some "sec", "srv"⟩ "code" none none
      (fun _ => [("access_token", "tok")])).1 "tok" rfl,
   (trade_code_access_token ⟨some "cid", some "sec", "srv"⟩ "code" none none
      (fun _ => [])).2 rfl⟩

/-- C5: authorize_code fails out-of-protocol on a response without a
redirect field; otherwise it returns the first code query parameter of
the redirect URL, failing with the fixed message when that parameter is
missing or empty; the two concrete examples of the specification
hold. -/
theorem authorize_code_redirect (resp : Response) :
    (resp.lookup "redirect" = none →
        authorizeCodeHandle resp =
          .error (.outOfProtocol "redirect missing in OAuth response"))
    ∧ (∀ url v, resp.lookup "redirect" = some url → firstCodeValue url = some v →
        authorizeCodeHandle resp = .ok v)
    ∧ (∀ url, resp.lookup "redirect" = some url → firstCodeValue url = none →
        authorizeCodeHandle resp =
          .error (.outOfProtocol "code missing in OAuth redirect url"))
    ∧ authorizeCodeHandle [("redirect", "https://x/?code=abc123&state=x")] = .ok "abc123"
    ∧ authorizeCodeHandle [("redirect", "https://x/?state=x")] =
        .error (.outOfProtocol "code missing in OAuth redirect url")
    ∧ authorizeCodeHandle [("redirect", "https://x/?code=&state=x")] =
        .error (.outOfProtocol "code missing in OAuth redirect url") := by
  refine ⟨?_, ?_, ?_, by decide, by decide, by decide⟩
  · intro h
    simp [authorizeCodeHandle, h]
  · intro url v h hv
    simp [authorizeCodeHandle, h, hv]
  · intro url h hv
    simp [authorizeCodeHandle, h, hv]

/-- Witness for C5 at the specification's concrete redirect URLs. -/
theorem authorize_code_redirect_witness :
    authorizeCodeHandle [("redirect", "https://x/?code=abc123&state=x")] = .ok "abc123"
    ∧ authorizeCodeHandle [("redirect", "https://x/?state=x")] =
        .error (.outOfProtocol "code missing in OAuth redirect url") :=
  ⟨(authorize_code_redirect []).2.2.2.1, (authorize_code_redirect []).2.2.2.2.1⟩

/-- C10: when the redirect URL's query string carries several non-empty
code parameters, authorize_code returns the first one. -/
theorem authorize_code_first_code (resp : Response) (url v₁ v₂ : String) (vs : List String)
    (h1 : resp.lookup "redirect" = some url)
    (h2 : codeValues url = v₁ :: v₂ :: vs) :
    authorizeCodeHandle resp = .ok v₁ := by
  simp [authorizeCodeHandle, h1, firstCodeValue, h2]

/-- Witness for C10: a redirect URL with two code parameters yields the
first value. -/
theorem authorize_code_first_code_witness :
    authorizeCodeHandle [("redirect", "https://x/?code=first&code=second")] = .ok "first" :=
  authorize_code_first_code [("redirect", "https://x/?code=first&code=second")]
    "https://x/?code=first&code=second" "first" "second" [] rfl (by decide)

/-- C7 counterexample: with no client id configured and none supplied
per call, trade_code raises no caller error; the request is issued with
a null client_id field and the response is processed normally. -/
theorem trade_code_no_client_id_check :
    (tradeCodeBody ⟨none, none, "https://oauth.accounts.firefox.com"⟩ "c0de" none none).lookup
        "client_id" = some none
    ∧ trade_code ⟨none, none, "https://oauth.accounts.firefox.com"⟩ "c0de" none none
        (fun _ => [("access_token", "tok")]) = .ok "tok" := by
  constructor <;> rfl

/-- C7 amended: every request-issuing operation puts the resolved
client id (per-call override, else the configured one, possibly null)
into its request body, and the request is issued unconditionally - no
local check rejects an absent client id. -/
theorem request_client_id_resolution (c : Client) (code assertion : String)
    (cid cs scope : Option String) (transport : RequestBody → Response) :
    (tradeCodeBody c code cid cs).lookup "client_id" = some (resolveClientId c cid)
    ∧ (authorizeCodeBody c assertion scope cid).lookup "client_id" =
        some (resolveClientId c cid)
    ∧ (authorizeTokenBody c assertion scope cid).lookup "client_id" =
        some (resolveClientId c cid)
    ∧ trade_code c code cid cs transport =
        tradeCodeHandle (transport (tradeCodeBody c code cid cs)) := by
  refine ⟨?_, ?_, ?_, rfl⟩ <;>
    simp [tradeCodeBody, authorizeCodeBody, authorizeTokenBody, List.lookup]

/-- C8 counterexample: verify_token uses no client id at all - its
request body has no client_id field and its behaviour is identical for
two clients configured with different client ids. -/
theorem verify_token_ignores_client_id :
    (verifyTokenBody "tok").lookup "client_id" = none
    ∧ (verify_token ⟨some "id_one", none, "srv"⟩ "tok" none
          (fun _ => [("user", "u"), ("scope", "s"), ("client_id", "web")])).1
      = (verify_token ⟨some "id_two", none, "srv"⟩ "tok" none
          (fun _ => [("user", "u"), ("scope", "s"), ("client_id", "web")])).1 := by
  constructor <;> rfl

/-- C8 amended: the redirect-URL, code-exchange and both
assertion-exchange operations each accept a per-call client_id override
defaulting to the configured one, while verify_token takes no client id
and sends exactly the token. -/
theorem client_id_override_operations (c : Client) (state code assertion token : String)
    (ru sc ac em cid cs scope : Option String) :
    (getRedirectUrlParams c state ru sc ac em cid).lookup "client_id" =
        some (resolveClientId c cid)
    ∧ (tradeCodeBody c code cid cs).lookup "client_id" = some (resolveClientId c cid)
    ∧ (authorizeCodeBody c assertion scope cid).lookup "client_id" =
        some (resolveClientId c cid)
    ∧ (authorizeTokenBody c assertion scope cid).lookup "client_id" =
        some (resolveClientId c cid)
    ∧ verifyTokenBody token = [("token", some token)] := by
  refine ⟨?_, ?_, ?_, ?_, rfl⟩ <;>
    simp [getRedirectUrlParams, tradeCodeBody, authorizeCodeBody, authorizeTokenBody,
      List.lookup]

/-- C9: verify_token leaves the client unchanged, and a second call
with the same inputs through the same transport yields the same
result. -/
theorem verify_token_idempotent (c : Client) (token : String) (scope : Option String)
    (transport : RequestBody → Response) :
    (verify_token c token scope transport).2 = c
    ∧ (verify_token ((verify_token c token scope transport).2) token scope transport).1
        = (verify_token c token scope transport).1 :=
  ⟨rfl, rfl⟩

/-! ### Round trip between query replacement and query extraction -/

/-- takeWhile runs through a first block that wholly satisfies the
predicate. -/
theorem takeWhile_append_all {α} {p : α → Bool} {l₁ : List α} (l₂ : List α)
    (h : ∀ x ∈ l₁, p x) : (l₁ ++ l₂).takeWhile p = l₁ ++ l₂.takeWhile p := by
  induction l₁ with
  | nil => simp
  | cons a l ih =>
    have ha : p a := h a (by simp)
    simp only [List.cons_append, List.takeWhile_cons_of_pos ha]
    rw [ih fun x hx => h x (by simp [hx])]

/-- dropWhile discards a first block that wholly satisfies the
predicate. -/
theorem dropWhile_append_all {α} {p : α → Bool} {l₁ : List α} (l₂ : List α)
    (h : ∀ x ∈ l₁, p x) : (l₁ ++ l₂).dropWhile p = l₂.dropWhile p := by
  induction l₁ with
  | nil => simp
  | cons a l ih =>
    have ha : p a := h a (by simp)
    simp only [List.cons_append, List.dropWhile_cons_of_pos ha]
    exact ih fun x hx => h x (by simp [hx])

/-- Characters kept by takeUntilChar differ from the separator. -/
theorem ne_of_mem_takeUntilChar {sep x : Char} {l : List Char}
    (hx : x ∈ takeUntilChar sep l) : x ≠ sep := by
  simpa using List.mem_takeWhile_imp hx

/-- takeUntilChar keeps only characters of the original list. -/
theorem mem_of_mem_takeUntilChar {sep x : Char} {l : List Char}
    (hx : x ∈ takeUntilChar sep l) : x ∈ l :=
  (List.takeWhile_prefix _).sublist.subset hx

/-- takeUntilChar passes over a separator-free block. -/
theorem takeUntilChar_prepend (sep : Char) {l₁ : List Char} (l₂ : List Char)
    (h : ∀ x ∈ l₁, x ≠ sep) :
    takeUntilChar sep (l₁ ++ l₂) = l₁ ++ takeUntilChar sep l₂ :=
  takeWhile_append_all l₂ fun x hx => by simpa using h x hx

/-- afterFirstChar finds the separator right after a separator-free
block. -/
theorem afterFirstChar_prepend (sep : Char) {l₁ : List Char} (l₂ : List Char)
    (h : ∀ x ∈ l₁, x ≠ sep) :
    afterFirstChar sep (l₁ ++ sep :: l₂) = l₂ := by
  unfold afterFirstChar
  rw [dropWhile_append_all (sep :: l₂) fun x hx => by simpa using h x hx]
  rw [List.dropWhile_cons_of_neg (by simp)]
  rfl

/-- Extracting the query of a URL whose query was just replaced gives
back exactly the replacement, provided the replacement is non-empty and
hash-free. -/
theorem queryOfL_replaceQueryL (url q : List Char) (hq : ∀ x ∈ q, x ≠ '#')
    (hne : q ≠ []) : queryOfL (replaceQueryL url q) = q := by
  unfold replaceQueryL queryOfL
  rw [if_neg hne]
  have hbq : ∀ x ∈ takeUntilChar '?' (takeUntilChar '#' url), x ≠ '?' :=
    fun x hx => ne_of_mem_takeUntilChar hx
  have hbh : ∀ x ∈ takeUntilChar '?' (takeUntilChar '#' url), x ≠ '#' :=
    fun x hx => ne_of_mem_takeUntilChar (mem_of_mem_takeUntilChar hx)
  have hall : ∀ x ∈ takeUntilChar '?' (takeUntilChar '#' url) ++ '?' :: q, x ≠ '#' := by
    intro x hx
    rcases List.mem_append.mp hx with hx | hx
    · exact hbh x hx
    · rcases List.mem_cons.mp hx with rfl | hx
      · decide
      · exact hq x hx
  rw [takeUntilChar_prepend '#' _ hall]
  have h3 : takeUntilChar '#'
      (if afterFirstChar '#' url = [] then ([] : List Char)
       else '#' :: afterFirstChar '#' url) = [] := by
    by_cases hf : afterFirstChar '#' url = [] <;> simp [hf, takeUntilChar]
  rw [h3, List.append_nil]
  exact afterFirstChar_prepend '?' q hbq

/-! ### The encoded query string is hash-free and non-empty -/

/-- Hexadecimal digits are not the hash character. -/
theorem hexDigitChar_ne_hash : ∀ n < 16, hexDigitChar n ≠ '#' := by decide

/-- Characters emitted by quotePlusChar are never the hash
character. -/
theorem quotePlusChar_ne_hash (c : Char) : ∀ x ∈ quotePlusChar c, x ≠ '#' := by
  intro x hx
  unfold quotePlusChar at hx
  split at hx
  · next hsafe =>
    rcases List.mem_singleton.mp hx with rfl
    intro hcEq
    rw [hcEq] at hsafe
    exact absurd hsafe (by decide)
  · split at hx
    · rcases List.mem_singleton.mp hx with rfl
      decide
    · rcases List.mem_flatten.mp hx with ⟨l, hl, hxl⟩
      rcases List.mem_map.mp hl with ⟨b, hb, rfl⟩
      unfold percentEncodeByte at hxl
      rcases List.mem_cons.mp hxl with rfl | hxl
      · decide
      · rcases List.mem_cons.mp hxl with rfl | hxl
        · exact hexDigitChar_ne_hash _ (Nat.mod_lt _ (by decide))
        · rcases List.mem_singleton.mp hxl with rfl
          exact hexDigitChar_ne_hash _ (Nat.mod_lt _ (by decide))

/-- quotePlusL output is hash-free. -/
theorem quotePlusL_ne_hash (s : String) : ∀ x ∈ quotePlusL s, x ≠ '#' := by
  intro x hx
  rcases List.mem_flatten.mp hx with ⟨l, hl, hxl⟩
  rcases List.mem_map.mp hl with ⟨ch, hc, rfl⟩
  exact quotePlusChar_ne_hash ch x hxl

/-- One encoded key=value piece is hash-free. -/
theorem urlencodePair_ne_hash (p : String × Option String) :
    ∀ x ∈ urlencodePair p, x ≠ '#' := by
  intro x hx
  unfold urlencodePair at hx
  rcases List.mem_append.mp hx with hx | hx
  · exact quotePlusL_ne_hash _ x hx
  · rcases List.mem_cons.mp hx with rfl | hx
    · decide
    · exact quotePlusL_ne_hash _ x hx

/-- Membership in an ampersand join comes from the separator or one of
the pieces. -/
theorem mem_joinAmp : ∀ (ls : List (List Char)) (x : Char), x ∈ joinAmp ls →
    x = '&' ∨ ∃ l ∈ ls, x ∈ l
  | [], x, hx => by simp [joinAmp] at hx
  | [l], x, hx => Or.inr ⟨l, by simp, by simpa [joinAmp] using hx⟩
  | l :: l₂ :: ls, x, hx => by
    rw [show joinAmp (l :: l₂ :: ls) = l ++ '&' :: joinAmp (l₂ :: ls) from rfl] at hx
    rcases List.mem_append.mp hx with hx | hx
    · exact Or.inr ⟨l, by simp, hx⟩
    · rcases List.mem_cons.mp hx with rfl | hx
      · exact Or.inl rfl
      · rcases mem_joinAmp (l₂ :: ls) x hx with h | ⟨m, hm, hxm⟩
        · exact Or.inl h
        · exact Or.inr ⟨m, List.mem_cons_of_mem _ hm, hxm⟩

/-- The whole encoded query string is hash-free. -/
theorem urlencodeL_ne_hash (ps : RequestBody) : ∀ x ∈ urlencodeL ps, x ≠ '#' := by
  intro x hx
  rcases mem_joinAmp _ x hx with rfl | ⟨l, hl, hxl⟩
  · decide
  · rcases List.mem_map.mp hl with ⟨p, hp, rfl⟩
    exact urlencodePair_ne_hash p x hxl

/-- The encoded redirect parameters are never empty: the mapping always
holds at least client_id and state. -/
theorem urlencodeL_params_ne_nil (c : Client) (state : String)
    (redirect_uri scope action email client_id : Option String) :
    urlencodeL (getRedirectUrlParams c state redirect_uri scope action email client_id)
      ≠ [] := by
  unfold urlencodeL getRedirectUrlParams
  simp [joinAmp, urlencodePair]

/-- C6: the query string of the URL built by get_redirect_url is
exactly the URL-encoding of the ordered mapping holding the resolved
client_id, the state, and each optional argument that is not null, in
source order, and nothing else. -/
theorem get_redirect_url_query (c : Client) (state : String)
    (redirect_uri scope action email client_id : Option String) :
    (queryOfL (get_redirect_url c state redirect_uri scope action email client_id).data
      = urlencodeL
          ([("client_id", resolveClientId c client_id), ("state", some state)]
            ++ optPair "redirect_uri" redirect_uri ++ optPair "scope" scope
            ++ optPair "action" action ++ optPair "email" email))
    ∧ get_redirect_url ⟨some "cid", none, "https://srv"⟩ "st ate" none
        (some "profile email") none none none
      = "https://srv/v1/authorization?client_id=cid&state=st+ate&scope=profile+email" :=
  ⟨queryOfL_replaceQueryL _ _ (urlencodeL_ne_hash _)
    (urlencodeL_params_ne_nil c state redirect_uri scope action email client_id),
   by decide⟩

end PyFxA
